import Mathlib

set_option maxRecDepth 8000

/-!
Shallow embedding of the Harvest Planning Aggregation & Query Engine of
`src/app.py` (RaiDaeng FarmOS): month keying, join resolution, yield
calculation, filtering, aggregation and serialization, together with the
theorems settling the specification claims.

Python floats are modelled as exact rationals (`ℚ`); Python `round(x, n)`
is modelled as round-half-to-even on the exact value.  Python `datetime.date`
is modelled as a year/month/day record in the proleptic Gregorian calendar,
and `timedelta(days = n)` addition as `n`-fold successor-day.
-/

/-- Calendar date, as Python `datetime.date` (valid years 1..9999). -/
structure Date where
  year : Nat
  month : Nat
  day : Nat
deriving DecidableEq, Repr

/-- Gregorian leap-year rule. -/
def isLeapYear (y : Nat) : Bool :=
  y % 4 == 0 && (y % 100 != 0 || y % 400 == 0)

/-- Number of days in month `m` of year `y`. -/
def daysInMonth (y m : Nat) : Nat :=
  if m == 2 then (if isLeapYear y then 29 else 28)
  else if m == 4 || m == 6 || m == 9 || m == 11 then 30
  else 31

/-- The successor day in the proleptic Gregorian calendar. -/
def Date.next (d : Date) : Date :=
  if d.day < daysInMonth d.year d.month then ⟨d.year, d.month, d.day + 1⟩
  else if d.month < 12 then ⟨d.year, d.month + 1, 1⟩
  else ⟨d.year + 1, 1, 1⟩

/-- `d + timedelta(days = n)` for a non-negative day count `n`. -/
def Date.addDays (d : Date) : Nat → Date
  | 0 => d
  | n + 1 => (d.addDays n).next

/-- A date is valid when its components are in the ranges Python
`datetime.date` accepts. -/
def Date.Valid (d : Date) : Prop :=
  1 ≤ d.year ∧ d.year ≤ 9999 ∧ 1 ≤ d.month ∧ d.month ≤ 12 ∧
    1 ≤ d.day ∧ d.day ≤ daysInMonth d.year d.month

instance : DecidablePred Date.Valid := fun d => by
  unfold Date.Valid; infer_instance

/-- The `w` zero-padded decimal digit characters of `n`, most significant
first, as printed by the f-string field `{n:0wd}` for `n < 10 ^ w`. -/
def padDigits : Nat → Nat → List Char
  | 0, _ => []
  | w + 1, n => Nat.digitChar (n / 10 ^ w) :: padDigits w (n % 10 ^ w)

/-- `month_key(d) = f"{d.year:04d}-{d.month:02d}"` (src/app.py, `month_key`). -/
def month_key (d : Date) : String :=
  ⟨padDigits 4 d.year ++ '-' :: padDigits 2 d.month⟩

/-- Floor of a rational, written so that the kernel can evaluate it. -/
def ratFloor (q : ℚ) : ℤ :=
  if 0 ≤ q.num then q.num / (q.den : ℤ)
  else -((-q.num + (q.den : ℤ) - 1) / (q.den : ℤ))

/-- Python `round` to an integer: round half to even. -/
def pyRoundInt (q : ℚ) : ℤ :=
  let n := ratFloor q
  let f := q - n
  if f < 1 / 2 then n
  else if 1 / 2 < f then n + 1
  else if n % 2 = 0 then n else n + 1

/-- Python `round(x, 3)` on the exact value. -/
def round3 (q : ℚ) : ℚ := (pyRoundInt (q * 1000) : ℚ) / 1000

/-- Farmer record (the fields the core engine reads). -/
structure Farmer where
  id : Nat
  code : String
  name : String
deriving DecidableEq, Repr

/-- Plot record. -/
structure Plot where
  id : Nat
  farmer_id : Nat
  plot_name : String
  area_rai : ℚ
deriving DecidableEq, Repr

/-- Planting record. -/
structure Planting where
  id : Nat
  plot_id : Nat
  crop : String
  variety : String
  plant_date : Date
  days_to_harvest : Nat
  yield_ton_per_rai : ℚ
  status : String
deriving DecidableEq, Repr

/-- `Planting.harvest_date`: `plant_date + timedelta(days=days_to_harvest)`
(src/app.py, property on `Planting`). -/
def Planting.harvest_date (pl : Planting) : Date :=
  pl.plant_date.addDays pl.days_to_harvest

/-- Lookup in a Python dict comprehension `{key(a): a for a in l}`:
the last element with the given key wins. -/
def dictLast {α : Type} (key : α → Nat) (l : List α) (i : Nat) : Option α :=
  (l.filter (fun a => key a == i)).getLast?

/-- `plot_map = {p.id: p for p in plots}` followed by `.get`. -/
def plotMap (plots : List Plot) (i : Nat) : Option Plot :=
  dictLast Plot.id plots i

/-- `farmer_map = {f.id: f for f in farmers}` followed by `.get`. -/
def farmerMap (farmers : List Farmer) (i : Nat) : Option Farmer :=
  dictLast Farmer.id farmers i

/-- The unrounded tonnage `(p.area_rai if p else 0.0) * pl.yield_ton_per_rai`. -/
def rawTons (p : Option Plot) (pl : Planting) : ℚ :=
  (match p with | some p0 => p0.area_rai | none => 0) * pl.yield_ton_per_rai

/-- One detail row of the plantings page (src/app.py, `plantings_page` row loop). -/
structure HarvestRow where
  pl : Planting
  plot : Option Plot
  farmer : Option Farmer
  harvest_date : Date
  harvest_month : String
  expected_tons : ℚ
deriving DecidableEq, Repr

/-- Build one detail row for a planting, resolving the joins fail-open. -/
def buildRow (farmers : List Farmer) (plots : List Plot) (pl : Planting) : HarvestRow :=
  let p := plotMap plots pl.plot_id
  let f := match p with | some p0 => farmerMap farmers p0.farmer_id | none => none
  { pl := pl
    plot := p
    farmer := f
    harvest_date := pl.harvest_date
    harvest_month := month_key pl.harvest_date
    expected_tons := round3 (rawTons p pl) }

/-- The full detail row list of `plantings_page` before filtering. -/
def buildRows (farmers : List Farmer) (plots : List Plot)
    (plantings : List Planting) : List HarvestRow :=
  plantings.map (buildRow farmers plots)

/-- Python `str.strip()`: drop whitespace from both ends. -/
def pyStrip (s : String) : String :=
  ⟨((s.data.dropWhile Char.isWhitespace).reverse.dropWhile Char.isWhitespace).reverse⟩

/-- Python `str.lower()` (character-wise lowering). -/
def pyLower (s : String) : String :=
  ⟨s.data.map Char.toLower⟩

/-- Python substring containment `needle in hay`. -/
def containsSub (needle : List Char) : List Char → Bool
  | [] => needle.isEmpty
  | c :: t => needle.isPrefixOf (c :: t) || containsSub needle t

/-- The free-text match predicate of `plantings_page`: the lowered, stripped
query is a substring of farmer name, farmer code, plot name, variety or
status, with absent related entities read as the empty string. -/
def textMatch (like : String) (r : HarvestRow) : Bool :=
  containsSub like.data (pyLower ((r.farmer.map Farmer.name).getD "")).data
  || containsSub like.data (pyLower ((r.farmer.map Farmer.code).getD "")).data
  || containsSub like.data (pyLower ((r.plot.map Plot.plot_name).getD "")).data
  || containsSub like.data (pyLower r.pl.variety).data
  || containsSub like.data (pyLower r.pl.status).data

/-- `plantings_page`'s free-text filter: applied only when `q.strip()` is
non-empty. -/
def filterText (rows : List HarvestRow) (q : String) : List HarvestRow :=
  if pyStrip q ≠ "" then rows.filter (textMatch (pyLower (pyStrip q))) else rows

/-- `plantings_page`'s month filter: applied only when `month` is non-empty,
comparing the row's month key for equality. -/
def filterMonth (rows : List HarvestRow) (month : String) : List HarvestRow :=
  if month ≠ "" then rows.filter (fun r => r.harvest_month == month) else rows

/-- The retained detail rows of `plantings_page` for query `q` and `month`. -/
def plantingsView (farmers : List Farmer) (plots : List Plot)
    (plantings : List Planting) (q month : String) : List HarvestRow :=
  filterMonth (filterText (buildRows farmers plots plantings) q) month

/-- `total_tons = round(sum(r["expected_tons"] for r in rows), 3)`. -/
def total_tons (rows : List HarvestRow) : ℚ :=
  round3 ((rows.map HarvestRow.expected_tons).sum)

/-- One data line of `/export/harvest.csv`, field by field
(src/app.py, `export_harvest_csv`). -/
structure ExportRow where
  month : String
  farmer_code : String
  farmer_name : String
  plot_name : String
  area_rai : ℚ
  variety : String
  plant_date : Date
  harvest_date : Date
  expected_tons : ℚ
  status : String
deriving DecidableEq, Repr

/-- Build the export line for one planting. -/
def exportRow (farmers : List Farmer) (plots : List Plot) (pl : Planting) :
    ExportRow :=
  let p := plotMap plots pl.plot_id
  let f := match p with | some p0 => farmerMap farmers p0.farmer_id | none => none
  { month := month_key pl.harvest_date
    farmer_code := (f.map Farmer.code).getD ""
    farmer_name := (f.map Farmer.name).getD ""
    plot_name := (p.map Plot.plot_name).getD ""
    area_rai := (p.map Plot.area_rai).getD 0
    variety := pl.variety
    plant_date := pl.plant_date
    harvest_date := pl.harvest_date
    expected_tons := round3 (rawTons p pl)
    status := pl.status }

/-- The data lines of the export (everything after the header line); the
endpoint takes no query parameters and emits one line per planting. -/
def exportRows (farmers : List Farmer) (plots : List Plot)
    (plantings : List Planting) : List ExportRow :=
  plantings.map (exportRow farmers plots)

/-- First-match lookup in an association list (Python dict read, under the
unique-keys invariant maintained by `dictSet`). -/
def dictGet : List (String × ℚ) → String → Option ℚ
  | [], _ => none
  | e :: rest, k => if e.1 = k then some e.2 else dictGet rest k

/-- Python dict write `d[k] = v`: overwrite in place or append. -/
def dictSet : List (String × ℚ) → String → ℚ → List (String × ℚ)
  | [], k, v => [(k, v)]
  | e :: rest, k, v => if e.1 = k then (k, v) :: rest else e :: dictSet rest k v

/-- `plot_area = {p.id: p.area_rai for p in plots}` followed by
`.get(i, 0.0)` (src/app.py, `dashboard` / `harvest_series`). -/
def plot_area (plots : List Plot) (i : Nat) : ℚ :=
  (((plots.filter (fun p => p.id == i)).map Plot.area_rai).getLast?).getD 0

/-- One iteration of the `by_month` accumulation loop:
`by_month[hk] = by_month.get(hk, 0.0) + tons`. -/
def monthStep (plots : List Plot) (acc : List (String × ℚ)) (pl : Planting) :
    List (String × ℚ) :=
  dictSet acc (month_key pl.harvest_date)
    ((dictGet acc (month_key pl.harvest_date)).getD 0 +
      plot_area plots pl.plot_id * pl.yield_ton_per_rai)

/-- The `by_month` accumulation loop shared by `dashboard` and
`harvest_series`. -/
def by_month (plots : List Plot) (plantings : List Planting) :
    List (String × ℚ) :=
  plantings.foldl (monthStep plots) []

/-- `/api/harvest_series` (src/app.py, `harvest_series`): sort the month
keys and emit `{month, tons}` with tons rounded to 3 decimals. -/
def harvest_series (plots : List Plot) (plantings : List Planting) :
    List (String × ℚ) :=
  let bm := by_month plots plantings
  let months_sorted := (bm.map Prod.fst).mergeSort (fun a b => decide (a ≤ b))
  months_sorted.map (fun m => (m, round3 ((dictGet bm m).getD 0)))

/-- The dashboard's series (src/app.py, `dashboard`): the same computation,
duplicated at its own call site. -/
def dashboard_series (plots : List Plot) (plantings : List Planting) :
    List (String × ℚ) :=
  let bm := by_month plots plantings
  let months_sorted := (bm.map Prod.fst).mergeSort (fun a b => decide (a ≤ b))
  months_sorted.map (fun m => (m, round3 ((dictGet bm m).getD 0)))

/-- The dashboard KPI `next_month_tons = series[0]["tons"] if series else 0.0`. -/
def next_month_tons (plots : List Plot) (plantings : List Planting) : ℚ :=
  match dashboard_series plots plantings with
  | e :: _ => e.2
  | [] => 0

/-! ### Concrete data sets used by witnesses and counterexamples -/

/-- A farmer used by the concrete scenarios. -/
def demoFarmer : Farmer := ⟨1, "RD001", "Somchai"⟩

/-- A 2.0-rai plot of `demoFarmer`. -/
def demoPlot : Plot := ⟨1, 1, "P1", 2⟩

/-- Yield rate 1.5 planted 2024-01-10, 120 days to harvest: expected
harvest 2024-05-09, month "2024-05", 3.0 tons. -/
def demoPlanting : Planting :=
  ⟨1, 1, "sweet potato", "Silk Sweet", ⟨2024, 1, 10⟩, 120, 3 / 2, "planted"⟩

/-- A second, 1.0-rai plot of `demoFarmer`. -/
def demoPlot2 : Plot := ⟨2, 1, "P2", 1⟩

/-- Yield rate 1.25 planted 2024-02-09, 90 days to harvest: also month
"2024-05", 1.25 tons. -/
def demoPlanting2 : Planting :=
  ⟨2, 2, "sweet potato", "Namtan", ⟨2024, 2, 9⟩, 90, 5 / 4, "planned"⟩

/-- A plot whose area is small enough that per-row rounding to 3 decimals
loses its tonnage entirely: 0.0004 rai. -/
def tinyPlot : Plot := ⟨1, 1, "T1", 1 / 2500⟩

/-- A planting of `tinyPlot` with yield rate 1: raw tonnage 0.0004. -/
def tinyPlanting : Planting :=
  ⟨1, 1, "sweet potato", "Silk Sweet", ⟨2024, 1, 10⟩, 120, 1, "planted"⟩

/-- A second planting of `tinyPlot`, same month: raw tonnage 0.0004. -/
def tinyPlanting2 : Planting :=
  ⟨2, 1, "sweet potato", "Silk Sweet", ⟨2024, 1, 10⟩, 120, 1, "planted"⟩

/-- A planting of a plot id (99) that exists in no plot list used below. -/
def orphanPlanting : Planting :=
  ⟨3, 99, "sweet potato", "Silk Sweet", ⟨2024, 1, 10⟩, 120, 3 / 2, "planted"⟩

/-! ### Helper lemmas -/

/-- Rounding the exact value zero gives zero. -/
theorem round3_zero : round3 0 = 0 := by
  norm_num [round3, pyRoundInt, ratFloor]

/-- Rows surviving the free-text filter come from the input row set. -/
theorem mem_of_mem_filterText {rows : List HarvestRow} {q : String}
    {r : HarvestRow} (h : r ∈ filterText rows q) : r ∈ rows := by
  unfold filterText at h
  split at h
  · exact List.mem_of_mem_filter h
  · exact h

/-- Rows surviving the month filter come from the input row set. -/
theorem mem_of_mem_filterMonth {rows : List HarvestRow} {month : String}
    {r : HarvestRow} (h : r ∈ filterMonth rows month) : r ∈ rows := by
  unfold filterMonth at h
  split at h
  · exact List.mem_of_mem_filter h
  · exact h

/-- Every retained detail row is the built row of some planting of the set. -/
theorem mem_plantingsView {farmers : List Farmer} {plots : List Plot}
    {plantings : List Planting} {q month : String} {r : HarvestRow}
    (h : r ∈ plantingsView farmers plots plantings q month) :
    ∃ pl ∈ plantings, r = buildRow farmers plots pl := by
  have h1 : r ∈ buildRows farmers plots plantings :=
    mem_of_mem_filterText (mem_of_mem_filterMonth h)
  rcases List.mem_map.1 h1 with ⟨pl, hpl, he⟩
  exact ⟨pl, hpl, he.symm⟩

/-! ### C7: filter order independence -/

/-- C7: for every row set, free-text query and month string, running the
free-text filter then the month filter retains exactly the same rows as the
opposite order: both are pure per-row predicates, so the two compositions
agree (even as lists, hence as sets). -/
theorem filter_order_independent (rows : List HarvestRow) (q month : String) :
    filterText (filterMonth rows month) q = filterMonth (filterText rows q) month := by
  unfold filterText filterMonth
  by_cases hq : pyStrip q ≠ "" <;> by_cases hm : month ≠ "" <;>
    simp [hq, hm, List.filter_comm]
  exact List.filter_congr fun r _ => by rw [Bool.and_comm]

/-! ### C8: empty query and month disable their filters -/

/-- C8: for every row set, an empty free-text query and an empty month
string each disable their filter: the full row set is retained. -/
theorem empty_filters_match_all (rows : List HarvestRow) :
    filterText rows "" = rows ∧ filterMonth rows "" = rows := by
  constructor
  · unfold filterText
    simp [pyStrip]
  · unfold filterMonth
    simp

/-! ### C10: dashboard and API series agree -/

/-- C10: on the same snapshot of plots and plantings the dashboard renders
exactly the series the `/api/harvest_series` endpoint returns, and the
`next_month_tons` KPI is the tons of the first entry of that shared series
(or 0.0 when the series is empty). -/
theorem dashboard_api_series_agree (plots : List Plot) (plantings : List Planting) :
    dashboard_series plots plantings = harvest_series plots plantings ∧
    next_month_tons plots plantings =
      ((harvest_series plots plantings).head?.map Prod.snd).getD 0 := by
  refine ⟨rfl, ?_⟩
  unfold next_month_tons
  cases h : dashboard_series plots plantings with
  | nil =>
    have h' : harvest_series plots plantings = [] := h
    simp [h']
  | cons e t =>
    have h' : harvest_series plots plantings = e :: t := h
    simp [h']

/-! ### C3: dangling plot references degrade, are never dropped -/

/-- A plot id matching no plot resolves to `none` (fail-open join). -/
theorem plotMap_eq_none {plots : List Plot} {i : Nat}
    (h : ∀ p ∈ plots, p.id ≠ i) : plotMap plots i = none := by
  unfold plotMap dictLast
  have he : plots.filter (fun p => p.id == i) = [] :=
    List.filter_eq_nil_iff.2 fun p hp => by simpa using h p hp
  rw [he]
  rfl

/-- Keys after a dict write are the old keys plus the written key. -/
theorem mem_keys_dictSet {l : List (String × ℚ)} {k k' : String} {v : ℚ} :
    k' ∈ (dictSet l k v).map Prod.fst ↔ k' ∈ l.map Prod.fst ∨ k' = k := by
  induction l with
  | nil => simp [dictSet]
  | cons e rest ih =>
    by_cases he : e.1 = k
    · simp [dictSet, he]
      tauto
    · simp [dictSet, he, ih]
      tauto

/-- A key present in the accumulator, or carried by some remaining planting,
is present after folding the `by_month` loop. -/
theorem mem_keys_foldl_monthStep (plots : List Plot) :
    ∀ (rest : List Planting) (acc : List (String × ℚ)) (k : String),
      (k ∈ acc.map Prod.fst ∨ ∃ pl ∈ rest, month_key pl.harvest_date = k) →
      k ∈ (rest.foldl (monthStep plots) acc).map Prod.fst := by
  intro rest
  induction rest with
  | nil =>
    intro acc k h
    rcases h with h | ⟨pl, hpl, _⟩
    · exact h
    · simp at hpl
  | cons pl0 rest ih =>
    intro acc k h
    refine ih (monthStep plots acc pl0) k ?_
    rcases h with h | ⟨pl, hpl, hk⟩
    · exact Or.inl (mem_keys_dictSet.2 (Or.inl h))
    · rcases List.mem_cons.1 hpl with rfl | hpl'
      · exact Or.inl (mem_keys_dictSet.2 (Or.inr hk.symm))
      · exact Or.inr ⟨pl, hpl', hk⟩

/-- Every planting's month key appears as a bucket of `by_month`. -/
theorem mem_keys_by_month {plots : List Plot} {plantings : List Planting}
    {pl : Planting} (h : pl ∈ plantings) :
    month_key pl.harvest_date ∈ (by_month plots plantings).map Prod.fst :=
  mem_keys_foldl_monthStep plots plantings [] _ (Or.inr ⟨pl, h, rfl⟩)

/-- C3: a planting whose plot id resolves to no plot yields a row with
`expected_tons == 0.0` and blank (`none`/empty-string) farmer and plot
fields, is still present among the detail rows and among the export's data
lines, and its month is still bucketed in the aggregated series. -/
theorem dangling_plot_fail_open (farmers : List Farmer) (plots : List Plot)
    (plantings : List Planting) (pl : Planting)
    (hmem : pl ∈ plantings) (hdangling : ∀ p ∈ plots, p.id ≠ pl.plot_id) :
    (buildRow farmers plots pl).expected_tons = 0 ∧
    (buildRow farmers plots pl).farmer = none ∧
    (buildRow farmers plots pl).plot = none ∧
    buildRow farmers plots pl ∈ buildRows farmers plots plantings ∧
    (exportRow farmers plots pl).farmer_code = "" ∧
    (exportRow farmers plots pl).farmer_name = "" ∧
    (exportRow farmers plots pl).plot_name = "" ∧
    (exportRow farmers plots pl).expected_tons = 0 ∧
    exportRow farmers plots pl ∈ exportRows farmers plots plantings ∧
    month_key pl.harvest_date ∈ (by_month plots plantings).map Prod.fst := by
  have hnone := plotMap_eq_none hdangling
  refine ⟨?_, ?_, ?_, ?_, ?_, ?_, ?_, ?_, ?_, ?_⟩
  · simp [buildRow, hnone, rawTons, round3_zero]
  · simp [buildRow, hnone]
  · simp [buildRow, hnone]
  · exact List.mem_map.2 ⟨pl, hmem, rfl⟩
  · simp [exportRow, hnone]
  · simp [exportRow, hnone]
  · simp [exportRow, hnone]
  · simp [exportRow, hnone, rawTons, round3_zero]
  · exact List.mem_map.2 ⟨pl, hmem, rfl⟩
  · exact mem_keys_by_month hmem

unseal Rat.mul Rat.add Rat.sub Rat.inv in
/-- Witness for C3: the dangling planting `orphanPlanting` against the
one-plot data set. -/
theorem dangling_plot_fail_open_witness :
    (buildRow [demoFarmer] [demoPlot] orphanPlanting).expected_tons = 0 ∧
    (buildRow [demoFarmer] [demoPlot] orphanPlanting).farmer = none ∧
    (buildRow [demoFarmer] [demoPlot] orphanPlanting).plot = none ∧
    buildRow [demoFarmer] [demoPlot] orphanPlanting ∈
      buildRows [demoFarmer] [demoPlot] [demoPlanting, orphanPlanting] ∧
    (exportRow [demoFarmer] [demoPlot] orphanPlanting).farmer_code = "" ∧
    (exportRow [demoFarmer] [demoPlot] orphanPlanting).farmer_name = "" ∧
    (exportRow [demoFarmer] [demoPlot] orphanPlanting).plot_name = "" ∧
    (exportRow [demoFarmer] [demoPlot] orphanPlanting).expected_tons = 0 ∧
    exportRow [demoFarmer] [demoPlot] orphanPlanting ∈
      exportRows [demoFarmer] [demoPlot] [demoPlanting, orphanPlanting] ∧
    month_key orphanPlanting.harvest_date ∈
      (by_month [demoPlot] [demoPlanting, orphanPlanting]).map Prod.fst :=
  dangling_plot_fail_open [demoFarmer] [demoPlot] [demoPlanting, orphanPlanting]
    orphanPlanting (by decide) (by decide)

/-! ### C6: harvest date is derived, never stored -/

unseal Rat.mul Rat.add Rat.sub Rat.inv in
/-- C6: every detail row's harvest date is recomputed as
`plant_date + days_to_harvest` days; in particular a 2.0-rai plot and a
yield rate of 1.5 planted 2024-01-10 with 120 days to harvest give harvest
date 2024-05-09, month key "2024-05" and 3.0 expected tons. -/
theorem harvest_date_derived :
    (∀ (farmers : List Farmer) (plots : List Plot) (plantings : List Planting)
        (r : HarvestRow), r ∈ buildRows farmers plots plantings →
        r.harvest_date = r.pl.plant_date.addDays r.pl.days_to_harvest) ∧
    buildRow [demoFarmer] [demoPlot] demoPlanting =
      { pl := demoPlanting, plot := some demoPlot, farmer := some demoFarmer,
        harvest_date := ⟨2024, 5, 9⟩, harvest_month := "2024-05",
        expected_tons := 3 } := by
  constructor
  · intro farmers plots plantings r hr
    rcases List.mem_map.1 hr with ⟨pl, _, rfl⟩
    rfl
  · decide

unseal Rat.mul Rat.add Rat.sub Rat.inv in
/-- Witness for C6: the general half applied to the scenario data. -/
theorem harvest_date_derived_witness :
    (buildRow [demoFarmer] [demoPlot] demoPlanting).harvest_date =
      (buildRow [demoFarmer] [demoPlot] demoPlanting).pl.plant_date.addDays
        (buildRow [demoFarmer] [demoPlot] demoPlanting).pl.days_to_harvest :=
  harvest_date_derived.1 [demoFarmer] [demoPlot] [demoPlanting]
    (buildRow [demoFarmer] [demoPlot] demoPlanting) (by decide)

/-! ### C9: whitespace-only query vs whitespace-only month -/

/-- A string of whitespace strips to the empty string. -/
theorem pyStrip_of_whitespace {q : String}
    (h : ∀ c ∈ q.data, c.isWhitespace) : pyStrip q = "" := by
  unfold pyStrip
  rw [List.dropWhile_eq_nil_iff.2 fun c hc => h c hc]
  rfl

/-- No month key equals a whitespace-only string: a month key always
contains the hyphen character. -/
theorem month_key_ne_whitespace (d : Date) {m : String}
    (h : ∀ c ∈ m.data, c.isWhitespace) : month_key d ≠ m := by
  intro he
  have hm : ('-' : Char) ∈ m.data := by
    rw [← he]
    exact List.mem_append_right _ (List.mem_cons_self _ _)
  exact absurd (h _ hm) (by decide)

/-- C9: the two query parameters treat whitespace asymmetrically: a
whitespace-only free-text query is stripped and disables the text filter
(all rows kept), while a whitespace-only month string is compared verbatim
against the `YYYY-MM` keys and retains zero rows. -/
theorem whitespace_filter_asymmetry :
    (∀ (rows : List HarvestRow) (q : String),
        (∀ c ∈ q.data, c.isWhitespace) → filterText rows q = rows) ∧
    (∀ (farmers : List Farmer) (plots : List Plot) (plantings : List Planting)
        (q m : String), m ≠ "" → (∀ c ∈ m.data, c.isWhitespace) →
        filterMonth (filterText (buildRows farmers plots plantings) q) m = []) := by
  constructor
  · intro rows q h
    unfold filterText
    simp [pyStrip_of_whitespace h]
  · intro farmers plots plantings q m hm hws
    unfold filterMonth
    rw [if_pos hm]
    refine List.filter_eq_nil_iff.2 fun r hr => ?_
    rcases List.mem_map.1 (mem_of_mem_filterText hr) with ⟨pl, _, rfl⟩
    simpa using month_key_ne_whitespace pl.harvest_date hws

unseal Rat.mul Rat.add Rat.sub Rat.inv in
/-- Witness for C9: query `" "` keeps all rows, month `" "` keeps none. -/
theorem whitespace_filter_asymmetry_witness :
    filterText (buildRows [demoFarmer] [demoPlot] [demoPlanting]) " " =
      buildRows [demoFarmer] [demoPlot] [demoPlanting] ∧
    filterMonth (filterText (buildRows [demoFarmer] [demoPlot] [demoPlanting]) " ") " " = [] :=
  ⟨whitespace_filter_asymmetry.1 (buildRows [demoFarmer] [demoPlot] [demoPlanting])
      " " (by decide),
   whitespace_filter_asymmetry.2 [demoFarmer] [demoPlot] [demoPlanting]
      " " " " (by decide) (by decide)⟩

/-! ### C1: rounding happens per row, not only at the boundary -/

/-- C1 (amended): the detail grand total is the *per-row rounded* tonnages,
summed, and rounded again: two rounding steps, with per-row rounding applied
mid-pipeline when the row is built. -/
theorem detail_total_per_row_rounded (farmers : List Farmer) (plots : List Plot)
    (plantings : List Planting) (q month : String) :
    total_tons (plantingsView farmers plots plantings q month) =
      round3 (((plantingsView farmers plots plantings q month).map
        (fun r => round3 (rawTons r.plot r.pl))).sum) := by
  unfold total_tons
  congr 1
  refine congrArg List.sum (List.map_congr_left fun r hr => ?_)
  rcases mem_plantingsView hr with ⟨pl, _, rfl⟩
  rfl

unseal Rat.mul Rat.add Rat.sub Rat.inv in
/-- Counterexample to C1 as stated: with two plantings of 0.0004 raw tons
each, the displayed grand total (0.0) is neither the once-rounded
full-precision sum (0.001) nor the aggregator's bucket total (0.001). -/
theorem rounding_mid_pipeline_cex :
    total_tons (plantingsView [demoFarmer] [tinyPlot] [tinyPlanting, tinyPlanting2] "" "") ≠
      round3 (((plantingsView [demoFarmer] [tinyPlot] [tinyPlanting, tinyPlanting2] "" "").map
        (fun r => rawTons r.plot r.pl)).sum) ∧
    total_tons (plantingsView [demoFarmer] [tinyPlot] [tinyPlanting, tinyPlanting2] "" "") ≠
      round3 ((dictGet (by_month [tinyPlot] [tinyPlanting, tinyPlanting2])
        (month_key tinyPlanting.harvest_date)).getD 0) := by
  decide

/-! ### C2: non-matching month query; the export ignores the query -/

/-- C2 (amended): a month string matching no row's key retains zero detail
rows and gives grand total 0.0 without error, but the CSV export endpoint
takes no query parameters: it still emits one data line per planting, so it
is not header-only. -/
theorem month_no_match_amended (farmers : List Farmer) (plots : List Plot)
    (plantings : List Planting) (q month : String) (hm : month ≠ "")
    (h : ∀ pl ∈ plantings, month_key pl.harvest_date ≠ month) :
    plantingsView farmers plots plantings q month = [] ∧
    total_tons (plantingsView farmers plots plantings q month) = 0 ∧
    (exportRows farmers plots plantings).length = plantings.length := by
  have h1 : plantingsView farmers plots plantings q month = [] := by
    unfold plantingsView filterMonth
    rw [if_pos hm]
    refine List.filter_eq_nil_iff.2 fun r hr => ?_
    rcases List.mem_map.1 (mem_of_mem_filterText hr) with ⟨pl, hpl, rfl⟩
    simpa using h pl hpl
  refine ⟨h1, ?_, ?_⟩
  · rw [h1]
    unfold total_tons
    simp [round3_zero]
  · simp [exportRows]

unseal Rat.mul Rat.add Rat.sub Rat.inv in
/-- Counterexample to C2 as stated: querying month "2024-06" against the
single-planting set of month "2024-05" empties the detail view with total
0.0, yet the export still has its one data line (it is not header-only). -/
theorem month_query_export_cex :
    plantingsView [demoFarmer] [demoPlot] [demoPlanting] "" "2024-06" = [] ∧
    total_tons (plantingsView [demoFarmer] [demoPlot] [demoPlanting] "" "2024-06") = 0 ∧
    exportRows [demoFarmer] [demoPlot] [demoPlanting] ≠ [] := by
  decide

unseal Rat.mul Rat.add Rat.sub Rat.inv in
/-- Witness for the amended C2 at the concrete scenario. -/
theorem month_no_match_amended_witness :
    plantingsView [demoFarmer] [demoPlot] [demoPlanting] "" "2024-06" = [] ∧
    total_tons (plantingsView [demoFarmer] [demoPlot] [demoPlanting] "" "2024-06") = 0 ∧
    (exportRows [demoFarmer] [demoPlot] [demoPlanting]).length =
      [demoPlanting].length :=
  month_no_match_amended [demoFarmer] [demoPlot] [demoPlanting] "" "2024-06"
    (by decide) (by decide)

/-! ### C4: the month key contract -/

/-- `padDigits` always yields exactly `w` characters. -/
theorem padDigits_length (w : Nat) : ∀ n, (padDigits w n).length = w := by
  induction w with
  | zero => intro n; rfl
  | succ w ih => intro n; simp [padDigits, ih]

/-- On single digits, `Nat.digitChar` is strictly monotone. -/
theorem digitChar_lt_iff_fin : ∀ a b : Fin 10,
    (Nat.digitChar a.val < Nat.digitChar b.val ↔ a.val < b.val) := by decide

/-- On single digits, `Nat.digitChar` is injective. -/
theorem digitChar_inj_fin : ∀ a b : Fin 10,
    Nat.digitChar a.val = Nat.digitChar b.val → a.val = b.val := by decide

/-- Bound-style wrapper around `digitChar_lt_iff_fin`. -/
theorem digitChar_lt_iff {a b : Nat} (ha : a < 10) (hb : b < 10) :
    (Nat.digitChar a < Nat.digitChar b ↔ a < b) :=
  digitChar_lt_iff_fin ⟨a, ha⟩ ⟨b, hb⟩

/-- Bound-style wrapper around `digitChar_inj_fin`. -/
theorem digitChar_inj {a b : Nat} (ha : a < 10) (hb : b < 10)
    (h : Nat.digitChar a = Nat.digitChar b) : a = b :=
  digitChar_inj_fin ⟨a, ha⟩ ⟨b, hb⟩ h

/-- Lexicographic order on a cons pair: strictly smaller head, or equal
head and lexicographically smaller tail. -/
theorem lexCons_iff {c1 c2 : Char} {t1 t2 : List Char} :
    List.Lex (· < ·) (c1 :: t1) (c2 :: t2) ↔
      c1 < c2 ∨ (c1 = c2 ∧ List.Lex (· < ·) t1 t2) := by
  constructor
  · intro h
    cases h with
    | rel h => exact Or.inl h
    | cons h => exact Or.inr ⟨rfl, h⟩
  · rintro (h | ⟨rfl, h⟩)
    · exact List.Lex.rel h
    · exact List.Lex.cons h

/-- Comparing naturals by leading block and remainder. -/
theorem lt_iff_div_lt_or_eq_mod_lt (B n1 n2 : Nat) :
    n1 < n2 ↔ (n1 / B < n2 / B ∨ (n1 / B = n2 / B ∧ n1 % B < n2 % B)) := by
  constructor
  · intro h
    rcases Nat.lt_or_ge (n1 / B) (n2 / B) with hd | hd
    · exact Or.inl hd
    · have hd' : n1 / B = n2 / B :=
        Nat.le_antisymm (Nat.div_le_div_right h.le) hd
      have e1 := Nat.mod_add_div n1 B
      have e2 := Nat.mod_add_div n2 B
      rw [hd'] at e1
      exact Or.inr ⟨hd', by omega⟩
  · rintro (hd | ⟨hd, hm⟩)
    · exact Nat.lt_of_div_lt_div hd
    · have e1 := Nat.mod_add_div n1 B
      have e2 := Nat.mod_add_div n2 B
      rw [hd] at e1
      omega

/-- Equal-width zero-padded digit strings compare lexicographically exactly
as the numbers they print. -/
theorem padDigits_lex : ∀ (w n1 n2 : Nat), n1 < 10 ^ w → n2 < 10 ^ w →
    (List.Lex (· < ·) (padDigits w n1) (padDigits w n2) ↔ n1 < n2) := by
  intro w
  induction w with
  | zero =>
    intro n1 n2 h1 h2
    simp only [padDigits]
    norm_num at h1 h2
    constructor
    · intro h
      exact absurd h (List.Lex.not_nil_right _ _)
    · intro h
      omega
  | succ w ih =>
    intro n1 n2 h1 h2
    have hB : (0 : Nat) < 10 ^ w := pow_pos (by norm_num) w
    have hPow : (10 : Nat) ^ (w + 1) = 10 ^ w * 10 := pow_succ 10 w
    have hd1 : n1 / 10 ^ w < 10 := Nat.div_lt_of_lt_mul (by rw [← hPow]; exact h1)
    have hd2 : n2 / 10 ^ w < 10 := Nat.div_lt_of_lt_mul (by rw [← hPow]; exact h2)
    have hm1 : n1 % 10 ^ w < 10 ^ w := Nat.mod_lt _ hB
    have hm2 : n2 % 10 ^ w < 10 ^ w := Nat.mod_lt _ hB
    simp only [padDigits]
    rw [lexCons_iff, digitChar_lt_iff hd1 hd2, ih _ _ hm1 hm2]
    constructor
    · rintro (h | ⟨he, h⟩)
      · exact (lt_iff_div_lt_or_eq_mod_lt (10 ^ w) n1 n2).2 (Or.inl h)
      · exact (lt_iff_div_lt_or_eq_mod_lt (10 ^ w) n1 n2).2
          (Or.inr ⟨digitChar_inj hd1 hd2 he, h⟩)
    · intro h
      rcases (lt_iff_div_lt_or_eq_mod_lt (10 ^ w) n1 n2).1 h with hd | ⟨hd, hm⟩
      · exact Or.inl hd
      · exact Or.inr ⟨congrArg Nat.digitChar hd, hm⟩

/-- Equal-width zero-padded digit strings are equal only for equal numbers. -/
theorem padDigits_inj : ∀ (w n1 n2 : Nat), n1 < 10 ^ w → n2 < 10 ^ w →
    padDigits w n1 = padDigits w n2 → n1 = n2 := by
  intro w
  induction w with
  | zero =>
    intro n1 n2 h1 h2 _
    norm_num at h1 h2
    omega
  | succ w ih =>
    intro n1 n2 h1 h2 he
    have hB : (0 : Nat) < 10 ^ w := pow_pos (by norm_num) w
    have hPow : (10 : Nat) ^ (w + 1) = 10 ^ w * 10 := pow_succ 10 w
    have hd1 : n1 / 10 ^ w < 10 := Nat.div_lt_of_lt_mul (by rw [← hPow]; exact h1)
    have hd2 : n2 / 10 ^ w < 10 := Nat.div_lt_of_lt_mul (by rw [← hPow]; exact h2)
    simp only [padDigits] at he
    injection he with hh ht
    have hd := digitChar_inj hd1 hd2 hh
    have hm := ih _ _ (Nat.mod_lt _ hB) (Nat.mod_lt _ hB) ht
    have e1 := Nat.mod_add_div n1 (10 ^ w)
    have e2 := Nat.mod_add_div n2 (10 ^ w)
    rw [hd, hm] at e1
    omega

/-- Lexicographic comparison splits over an equal-length prefix. -/
theorem lex_append_iff : ∀ (a a' b b' : List Char), a.length = a'.length →
    (List.Lex (· < ·) (a ++ b) (a' ++ b') ↔
      List.Lex (· < ·) a a' ∨ (a = a' ∧ List.Lex (· < ·) b b')) := by
  intro a
  induction a with
  | nil =>
    intro a' b b' h
    have ha : a' = [] := by
      cases a' with
      | nil => rfl
      | cons x xs => simp at h
    subst ha
    constructor
    · intro hb
      exact Or.inr ⟨rfl, hb⟩
    · rintro (h | ⟨-, hb⟩)
      · exact absurd h (List.Lex.not_nil_right _ _)
      · exact hb
  | cons c t ih =>
    intro a' b b' h
    cases a' with
    | nil => simp at h
    | cons c' t' =>
      have ht : t.length = t'.length := by simpa using h
      simp only [List.cons_append]
      rw [lexCons_iff, lexCons_iff, ih t' b b' ht]
      constructor
      · rintro (hc | ⟨rfl, (htl | ⟨rfl, hb⟩)⟩)
        · exact Or.inl (Or.inl hc)
        · exact Or.inl (Or.inr ⟨rfl, htl⟩)
        · exact Or.inr ⟨rfl, hb⟩
      · rintro ((hc | ⟨rfl, htl⟩) | ⟨he, hb⟩)
        · exact Or.inl hc
        · exact Or.inr ⟨rfl, Or.inl htl⟩
        · injection he with he1 he2
          subst he1
          subst he2
          exact Or.inr ⟨rfl, Or.inr ⟨rfl, hb⟩⟩

/-- The month key of a date has exactly 7 characters. -/
theorem month_key_length (d : Date) : (month_key d).length = 7 := by
  show (padDigits 4 d.year ++ '-' :: padDigits 2 d.month).length = 7
  simp [padDigits_length]

/-- Dates sharing year and month share their month key. -/
theorem month_key_eq_of_same_month {d1 d2 : Date}
    (hy : d1.year = d2.year) (hm : d1.month = d2.month) :
    month_key d1 = month_key d2 := by
  unfold month_key
  rw [hy, hm]

/-- On valid dates, month keys compare lexicographically exactly as the
(year, month) pairs compare chronologically. -/
theorem month_key_lt_iff {d1 d2 : Date} (h1 : d1.Valid) (h2 : d2.Valid) :
    (month_key d1 < month_key d2 ↔
      (d1.year < d2.year ∨ (d1.year = d2.year ∧ d1.month < d2.month))) := by
  obtain ⟨-, hy1b, -, hm1b, -, -⟩ := h1
  obtain ⟨-, hy2b, -, hm2b, -, -⟩ := h2
  have e4 : (10 : Nat) ^ 4 = 10000 := by norm_num
  have e2 : (10 : Nat) ^ 2 = 100 := by norm_num
  have hy1 : d1.year < 10 ^ 4 := by omega
  have hy2 : d2.year < 10 ^ 4 := by omega
  have hm1 : d1.month < 10 ^ 2 := by omega
  have hm2 : d2.month < 10 ^ 2 := by omega
  have main : List.Lex (· < ·)
      (padDigits 4 d1.year ++ '-' :: padDigits 2 d1.month)
      (padDigits 4 d2.year ++ '-' :: padDigits 2 d2.month) ↔
      (d1.year < d2.year ∨ (d1.year = d2.year ∧ d1.month < d2.month)) := by
    rw [lex_append_iff _ _ _ _ (by rw [padDigits_length, padDigits_length])]
    rw [lexCons_iff]
    rw [padDigits_lex 4 _ _ hy1 hy2, padDigits_lex 2 _ _ hm1 hm2]
    constructor
    · rintro (h | ⟨he, (hc | ⟨-, h⟩)⟩)
      · exact Or.inl h
      · exact absurd hc (lt_irrefl _)
      · exact Or.inr ⟨padDigits_inj 4 _ _ hy1 hy2 he, h⟩
    · rintro (h | ⟨he, h⟩)
      · exact Or.inl h
      · exact Or.inr ⟨by rw [he], Or.inr ⟨rfl, h⟩⟩
  constructor
  · intro h
    exact main.1 (String.lt_iff_toList_lt.1 h)
  · intro h
    exact String.lt_iff_toList_lt.2 (main.2 h)

/-- C4: `month_key` is a pure total function returning a 7-character
zero-padded `YYYY-MM` key; dates sharing year and month share keys; and on
valid dates chronological order of (year, month) coincides with
lexicographic order of the keys. -/
theorem month_key_contract :
    (∀ d : Date, d.Valid → (month_key d).length = 7) ∧
    (∀ d1 d2 : Date, d1.year = d2.year → d1.month = d2.month →
        month_key d1 = month_key d2) ∧
    (∀ d1 d2 : Date, d1.Valid → d2.Valid →
        ((d1.year < d2.year ∨ (d1.year = d2.year ∧ d1.month < d2.month)) ↔
          month_key d1 < month_key d2)) :=
  ⟨fun d _ => month_key_length d,
   fun _ _ hy hm => month_key_eq_of_same_month hy hm,
   fun _ _ h1 h2 => (month_key_lt_iff h1 h2).symm⟩

/-- Witness for C4 at concrete dates. -/
theorem month_key_contract_witness :
    (month_key ⟨2024, 5, 9⟩).length = 7 ∧
    month_key ⟨2024, 5, 1⟩ = month_key ⟨2024, 5, 31⟩ ∧
    month_key ⟨2024, 5, 9⟩ < month_key ⟨2024, 6, 1⟩ :=
  ⟨month_key_contract.1 ⟨2024, 5, 9⟩ (by decide),
   month_key_contract.2.1 ⟨2024, 5, 1⟩ ⟨2024, 5, 31⟩ rfl rfl,
   (month_key_contract.2.2 ⟨2024, 5, 9⟩ ⟨2024, 6, 1⟩ (by decide) (by decide)).1
     (Or.inr ⟨rfl, by decide⟩)⟩

/-! ### C5: the aggregated series -/

/-- Reading a dict after a write: the written key sees the new value, other
keys are untouched. -/
theorem dictGet_dictSet (l : List (String × ℚ)) (k : String) (v : ℚ) (k' : String) :
    dictGet (dictSet l k v) k' = if k' = k then some v else dictGet l k' := by
  induction l with
  | nil =>
    by_cases h : k' = k
    · subst h
      simp [dictSet, dictGet]
    · have h' : ¬(k = k') := fun hh => h hh.symm
      simp [dictSet, dictGet, h, h']
  | cons e rest ih =>
    by_cases he : e.1 = k
    · by_cases h : k' = k
      · subst h
        simp [dictSet, dictGet, he]
      · have h' : ¬(k = k') := fun hh => h hh.symm
        have h2 : ¬(e.1 = k') := by
          rw [he]
          exact h'
        simp [dictSet, dictGet, he, h, h', h2]
    · by_cases h : e.1 = k'
      · have hk : ¬(k' = k) := fun hh => he (h.trans hh)
        simp [dictSet, dictGet, he, h, hk]
      · simp [dictSet, dictGet, he, h, ih]

/-- Folding the `by_month` loop adds, bucket by bucket, the tonnage of the
processed plantings to whatever the accumulator already held. -/
theorem by_month_foldl_lookup (plots : List Plot) :
    ∀ (rest : List Planting) (acc : List (String × ℚ)) (k : String),
      (dictGet (rest.foldl (monthStep plots) acc) k).getD 0 =
        (dictGet acc k).getD 0 +
          ((rest.filter (fun pl => month_key pl.harvest_date == k)).map
            (fun pl => plot_area plots pl.plot_id * pl.yield_ton_per_rai)).sum := by
  intro rest
  induction rest with
  | nil =>
    intro acc k
    simp
  | cons pl rest ih =>
    intro acc k
    rw [List.foldl_cons, ih (monthStep plots acc pl) k]
    unfold monthStep
    rw [dictGet_dictSet]
    by_cases h : k = month_key pl.harvest_date
    · subst h
      rw [if_pos rfl]
      simp only [List.filter_cons, beq_self_eq_true, if_pos, List.map_cons,
        List.sum_cons, Option.getD_some]
      ring
    · rw [if_neg h]
      have hb : (month_key pl.harvest_date == k) = false :=
        beq_eq_false_iff_ne.2 fun hh => h hh.symm
      simp only [List.filter_cons, hb, Bool.false_eq_true, if_neg,
        not_false_iff]

/-- Each `by_month` bucket holds the full-precision sum of the tonnage of
the plantings harvesting in that month. -/
theorem by_month_lookup (plots : List Plot) (plantings : List Planting)
    (k : String) :
    (dictGet (by_month plots plantings) k).getD 0 =
      ((plantings.filter (fun pl => month_key pl.harvest_date == k)).map
        (fun pl => plot_area plots pl.plot_id * pl.yield_ton_per_rai)).sum := by
  unfold by_month
  rw [by_month_foldl_lookup]
  simp [dictGet]

/-- A dict write preserves distinctness of the keys. -/
theorem keys_dictSet_nodup {l : List (String × ℚ)} {k : String} {v : ℚ}
    (h : (l.map Prod.fst).Nodup) : ((dictSet l k v).map Prod.fst).Nodup := by
  induction l with
  | nil => simp [dictSet]
  | cons e rest ih =>
    rw [List.map_cons] at h
    rcases List.nodup_cons.1 h with ⟨hnotin, hrest⟩
    by_cases he : e.1 = k
    · simp only [dictSet, he, if_pos, List.map_cons]
      refine List.nodup_cons.2 ⟨?_, hrest⟩
      rw [← he]
      exact hnotin
    · simp only [dictSet, he, if_neg, not_false_iff, List.map_cons]
      refine List.nodup_cons.2 ⟨?_, ih hrest⟩
      intro hmem
      rcases mem_keys_dictSet.1 hmem with hm | hm
      · exact hnotin hm
      · exact he hm

/-- The `by_month` buckets have pairwise-distinct keys. -/
theorem by_month_keys_nodup_aux (plots : List Plot) :
    ∀ (rest : List Planting) (acc : List (String × ℚ)),
      (acc.map Prod.fst).Nodup →
      ((rest.foldl (monthStep plots) acc).map Prod.fst).Nodup := by
  intro rest
  induction rest with
  | nil => intro acc h; exact h
  | cons pl rest ih =>
    intro acc h
    exact ih _ (keys_dictSet_nodup h)

/-- Keys of `by_month` are distinct. -/
theorem by_month_keys_nodup (plots : List Plot) (plantings : List Planting) :
    ((by_month plots plantings).map Prod.fst).Nodup :=
  by_month_keys_nodup_aux plots plantings [] (by simp)

/-- The months of the series are the sorted bucket keys. -/
theorem harvest_series_months (plots : List Plot) (plantings : List Planting) :
    (harvest_series plots plantings).map Prod.fst =
      ((by_month plots plantings).map Prod.fst).mergeSort
        (fun a b => decide (a ≤ b)) := by
  unfold harvest_series
  rw [List.map_map]
  rw [show (Prod.fst ∘ fun m =>
      (m, round3 ((dictGet (by_month plots plantings) m).getD 0))) = id from rfl]
  exact List.map_id _

unseal Rat.mul Rat.add Rat.sub Rat.inv List.merge List.mergeSort in
/-- C5: the series is sorted ascending by month key, each month key occurs
exactly once, and each entry's tons is the full-precision bucket sum rounded
once to 3 decimals; every planting's month has an entry; and the two-planting
scenario (3.0 and 1.25 tons, both month "2024-05") yields exactly
`[("2024-05", 4.25)]`. -/
theorem series_aggregation (plots : List Plot) (plantings : List Planting) :
    ((harvest_series plots plantings).map Prod.fst).Sorted (· ≤ ·) ∧
    ((harvest_series plots plantings).map Prod.fst).Nodup ∧
    (∀ e ∈ harvest_series plots plantings,
        e.2 = round3 (((plantings.filter
          (fun pl => month_key pl.harvest_date == e.1)).map
            (fun pl => plot_area plots pl.plot_id * pl.yield_ton_per_rai)).sum)) ∧
    (∀ pl ∈ plantings,
        month_key pl.harvest_date ∈ (harvest_series plots plantings).map Prod.fst) ∧
    harvest_series [demoPlot, demoPlot2] [demoPlanting, demoPlanting2] =
      [("2024-05", 17 / 4)] := by
  refine ⟨?_, ?_, ?_, ?_, ?_⟩
  · rw [harvest_series_months]
    exact List.sorted_mergeSort' _
  · rw [harvest_series_months]
    exact (List.mergeSort_perm _ _).nodup_iff.2 (by_month_keys_nodup plots plantings)
  · intro e he
    unfold harvest_series at he
    rcases List.mem_map.1 he with ⟨m, _, rfl⟩
    show round3 ((dictGet (by_month plots plantings) m).getD 0) = _
    rw [by_month_lookup]
  · intro pl hpl
    rw [harvest_series_months]
    exact (List.mergeSort_perm _ _).mem_iff.2 (mem_keys_by_month hpl)
  · decide

unseal Rat.mul Rat.add Rat.sub Rat.inv List.merge List.mergeSort in
/-- Witness for C5 at the concrete entry and planting. -/
theorem series_aggregation_witness :
    (("2024-05", (17 : ℚ) / 4)).2 = round3 ((([demoPlanting, demoPlanting2].filter
      (fun pl => month_key pl.harvest_date == (("2024-05", (17 : ℚ) / 4)).1)).map
        (fun pl => plot_area [demoPlot, demoPlot2] pl.plot_id *
          pl.yield_ton_per_rai)).sum) ∧
    month_key demoPlanting.harvest_date ∈
      (harvest_series [demoPlot, demoPlot2] [demoPlanting, demoPlanting2]).map
        Prod.fst :=
  ⟨(series_aggregation [demoPlot, demoPlot2] [demoPlanting, demoPlanting2]).2.2.1
      ("2024-05", 17 / 4) (by decide),
   (series_aggregation [demoPlot, demoPlot2] [demoPlanting, demoPlanting2]).2.2.2.1
      demoPlanting (by decide)⟩
